import Mathlib

/-!
Verification of the signal-aggregation and scoring pipeline of the
knowyourcompany backend (`src/backend/app`), shallowly embedded in Lean 4.

Python strings are modelled as lists of Unicode code points (`List Nat`);
Python floats appearing in the scoring arithmetic are modelled as rationals.
Each definition mirrors the corresponding Python function; the Python
truthiness tests on optional strings and floats (`if signal.snippet:`,
`if signal.rating and ...`, `if not website:`) are embedded explicitly.
-/

namespace KnowYourCompany

/-! ## Text model -/

abbrev Text := List Nat

/-- Code-point list of a string literal. -/
def txt (s : String) : Text := s.toList.map Char.toNat

/-- Whitespace according to Python `str.strip` (ASCII fragment). -/
def isPySpace (c : Nat) : Bool :=
  c == 32 || c == 9 || c == 10 || c == 13 || c == 11 || c == 12

/-- ASCII lower-casing of one code point (Python `str.lower`). -/
def lowerChar (c : Nat) : Nat := if 65 ≤ c ∧ c ≤ 90 then c + 32 else c

/-- Python `s.lower()`. -/
def pyLower (t : Text) : Text := t.map lowerChar

/-- Python `s.strip()`: drop leading and trailing whitespace. -/
def pyStrip (t : Text) : Text :=
  ((t.dropWhile isPySpace).reverse.dropWhile isPySpace).reverse

/-- Boolean prefix test on code-point lists. -/
def isPrefixTxt : Text → Text → Bool
  | [], _ => true
  | _ :: _, [] => false
  | a :: as, b :: bs => a == b && isPrefixTxt as bs

/-- Python substring containment `needle in hay`. -/
def containsSub (needle : Text) : Text → Bool
  | [] => needle.isEmpty
  | hd :: tl => isPrefixTxt needle (hd :: tl) || containsSub needle tl

/-! ## Data model (`app/models/company.py`) -/

inductive Platform where
  | reddit
  | x
  | glassdoor
  | ambitionbox
  | linkedin
  | manual
deriving DecidableEq

inductive SentimentTag where
  | pos
  | neg
  | mixed
  | neutral
deriving DecidableEq

/-- `SourceSignal` pydantic model. `rating` carries the 0.0–5.0 bound
as a validation-time constraint, not a type-level one. -/
structure SourceSignal where
  platform : Platform
  url : Text
  title : Option Text := none
  snippet : Option Text := none
  rating : Option ℚ := none
  review_count : Option Nat := none
  sentiment : Option SentimentTag := none
deriving DecidableEq

inductive Risk where
  | low
  | medium
  | high
  | unknown
deriving DecidableEq

inductive CompanyType where
  | training
  | edtech
  | staffing
  | it_services
deriving DecidableEq

/-! ## Keyword tables (`app/services/scoring.py`) -/

def NEGATIVE_KEYWORDS : List Text :=
  [txt "scam", txt "fraud", txt "fake", txt "unpaid", txt "no stipend",
   txt "certificate only", txt "pay to", txt "waste of time", txt "regret",
   txt "never hire", txt "avoid", txt "terrible", txt "worst", txt "ripoff",
   txt "deceptive", txt "misleading", txt "false promises"]

def POSITIVE_KEYWORDS : List Text :=
  [txt "good learning", txt "helpful", txt "supportive", txt "got stipend",
   txt "valuable", txt "recommended", txt "genuine", txt "legit", txt "trustworthy",
   txt "professional", txt "excellent", txt "great experience", txt "worth it"]

def TRAINING_KEYWORDS : List Text :=
  [txt "training", txt "course", txt "bootcamp", txt "academy", txt "institute",
   txt "coaching"]

def STAFFING_KEYWORDS : List Text :=
  [txt "recruitment", txt "staffing", txt "manpower", txt "placement",
   txt "placement agency"]

def EDTECH_KEYWORDS : List Text :=
  [txt "edtech", txt "online learning", txt "e-learning", txt "digital learning",
   txt "skill"]

def IT_SERVICES_KEYWORDS : List Text :=
  [txt "it services", txt "software development", txt "consulting",
   txt "tech solutions"]

/-! ## Scoring engine (`app/services/scoring.py`) -/

/-- `analyze_sentiment`: keyword-presence polarity in `[-1, 1]`. -/
def analyze_sentiment (text : Text) : ℚ :=
  let text_lower := pyLower text
  let positive_count := (POSITIVE_KEYWORDS.filter fun kw => containsSub kw text_lower).length
  let negative_count := (NEGATIVE_KEYWORDS.filter fun kw => containsSub kw text_lower).length
  let total := positive_count + negative_count
  if total = 0 then 0
  else ((positive_count : ℚ) - (negative_count : ℚ)) / (total : ℚ)

/-- Python truthiness of `signal.snippet` (a present but empty snippet is falsy). -/
def truthySnippet (s : SourceSignal) : Option Text :=
  match s.snippet with
  | some t => if t.isEmpty then none else some t
  | none => none

/-- `infer_company_type`: lower-cased name + truthy snippets, keyword sets
tested in the source's order: training, edtech, staffing, it_services. -/
def infer_company_type (signals : List SourceSignal) (company_name : Text) :
    Option CompanyType :=
  let combined_text :=
    pyLower (company_name ++ txt " " ++
      List.intercalate (txt " ") (signals.filterMap truthySnippet))
  if TRAINING_KEYWORDS.any (fun kw => containsSub kw combined_text) then
    some CompanyType.training
  else if EDTECH_KEYWORDS.any (fun kw => containsSub kw combined_text) then
    some CompanyType.edtech
  else if STAFFING_KEYWORDS.any (fun kw => containsSub kw combined_text) then
    some CompanyType.staffing
  else if IT_SERVICES_KEYWORDS.any (fun kw => containsSub kw combined_text) then
    some CompanyType.it_services
  else none

def critical_flags : List Text :=
  [txt "course_marketed_as_internship", txt "no_external_signals_found"]

/-- `determine_scam_risk`: critical-flag check, then score thresholds,
then the low-score flag-count fallback. -/
def determine_scam_risk (authenticity_score : ℚ) (flags : List Text) : Risk :=
  if ∃ flag ∈ critical_flags, flag ∈ flags then Risk.high
  else if 75 ≤ authenticity_score then Risk.low
  else if 50 ≤ authenticity_score then Risk.medium
  else if 25 ≤ authenticity_score then Risk.high
  else if 3 ≤ flags.length then Risk.high
  else Risk.unknown

/-- Sentiment values gathered in the per-signal loop of `compute_scores`
(`if signal.snippet: sentiment_scores.append(analyze_sentiment(...))`). -/
def sentimentList (signals : List SourceSignal) : List ℚ :=
  signals.filterMap fun s => (truthySnippet s).map analyze_sentiment

/-- Ratings gathered in the per-signal loop of `compute_scores`
(`if signal.rating and signal.platform in ["glassdoor", "ambitionbox"]`);
note that a present rating of `0.0` is falsy in Python and is skipped. -/
def ratingList (signals : List SourceSignal) : List ℚ :=
  signals.filterMap fun s =>
    match s.rating with
    | some r =>
        if r ≠ 0 ∧ (s.platform = Platform.glassdoor ∨ s.platform = Platform.ambitionbox)
        then some r else none
    | none => none

/-- Score after the neutral prior and the sentiment adjustment. -/
def sentimentAdjustedScore (signals : List SourceSignal) : ℚ :=
  let sentiment_scores := sentimentList signals
  if sentiment_scores.isEmpty then 50
  else
    let pos_count := (sentiment_scores.filter fun s => decide (0 < s)).length
    let neg_count := (sentiment_scores.filter fun s => decide (s < 0)).length
    50 + (((pos_count : ℚ) - (neg_count : ℚ)) / (sentiment_scores.length : ℚ)) * 25

/-- Score after the sentiment and rating adjustments (still unclamped). -/
def baseScore (signals : List SourceSignal) : ℚ :=
  let s := sentimentAdjustedScore signals
  let ratings := ratingList signals
  if ratings.isEmpty then s
  else s + ((ratings.sum / (ratings.length : ℚ)) / 5) * 25

/-- The evidence-volume step applied to an unclamped score. -/
def volumeFactorApplied (signals : List SourceSignal) (score : ℚ) : ℚ :=
  if signals.length = 0 then 20
  else if signals.length < 3 then score * (9 / 10)
  else score

/-- The unclamped authenticity score after the evidence-volume step. -/
def volumeScore (signals : List SourceSignal) : ℚ :=
  volumeFactorApplied signals (baseScore signals)

/-- The category-specific scan of `compute_scores`: only for training/edtech,
the first truthy snippet containing both a course/training token and an
internship/placement token adds `course_marketed_as_internship` (then break). -/
def courseFlag (signals : List SourceSignal) (company_type : Option CompanyType) :
    List Text :=
  if company_type = some CompanyType.training ∨ company_type = some CompanyType.edtech then
    if signals.any (fun s =>
        match truthySnippet s with
        | some t =>
            ([txt "course", txt "training"].any fun kw => containsSub kw (pyLower t)) &&
            ([txt "internship", txt "placement"].any fun kw => containsSub kw (pyLower t))
        | none => false)
    then [txt "course_marketed_as_internship"] else []
  else []

/-- All flags appended by `compute_scores`, in the source's append order:
volume flag, `no_linkedin_page`, `no_glassdoor_presence`,
`no_website_provided` (a present but empty website string is falsy),
then the category-specific flag. -/
def flagsOf (signals : List SourceSignal) (website : Option Text)
    (company_type : Option CompanyType) : List Text :=
  let volume :=
    if signals.length = 0 then [txt "no external signals found"]
    else if signals.length < 3 then [txt "limited external signals"]
    else []
  let linkedinF :=
    if ∃ s ∈ signals, s.platform = Platform.linkedin then []
    else [txt "no_linkedin_page"]
  let glassdoorF :=
    if ∃ s ∈ signals, s.platform = Platform.glassdoor then []
    else [txt "no_glassdoor_presence"]
  let websiteF :=
    match website with
    | none => [txt "no_website_provided"]
    | some w => if w.isEmpty then [txt "no_website_provided"] else []
  volume ++ linkedinF ++ glassdoorF ++ websiteF ++ courseFlag signals company_type

/-- Final clamp `max(0.0, min(100.0, score))`. -/
def clamp0100 (x : ℚ) : ℚ := max 0 (min 100 x)

/-- `compute_scores`: returns (clamped score, risk, flags, company type).
As in the source, `determine_scam_risk` sees the score before clamping. -/
def compute_scores (signals : List SourceSignal) (company_name : Text)
    (website : Option Text) : ℚ × Risk × List Text × Option CompanyType :=
  let company_type := infer_company_type signals company_name
  let flags := flagsOf signals website company_type
  let authenticity_score := volumeScore signals
  let scam_risk := determine_scam_risk authenticity_score flags
  (clamp0100 authenticity_score, scam_risk, flags, company_type)

/-! ## Canonicalizer and request validation
(`app/services/company_aggregator.py`, `app/models/company.py`) -/

/-- `normalize_canonical_name`: `name.strip().lower()`. -/
def normalize_canonical_name (name : Text) : Text := pyLower (pyStrip name)

structure CheckCompanyRequest where
  name : Text
  website : Option Text := none
  country : Option Text := none
  category : Option Text := none
deriving DecidableEq

inductive ValidationError where
  | invalidInput
deriving DecidableEq

/-- Pydantic validation of `CheckCompanyRequest`: the only constraint on the
name is `min_length=1`; whitespace is not inspected. -/
def parseCheckCompanyRequest (name : Text) (website : Option Text) :
    Except ValidationError CheckCompanyRequest :=
  if 1 ≤ name.length then Except.ok { name := name, website := website }
  else Except.error ValidationError.invalidInput

/-! ## Fan-out runner (`fetch_all_signals`) -/

/-- Outcome of one connector: an exception or a signal list. -/
abbrev ConnectorResult := Except Text (List SourceSignal)

/-- The result-processing loop of `fetch_all_signals`: exceptions contribute
nothing, successes are extended onto the accumulator in order. -/
def processResults (acc : List SourceSignal) : List ConnectorResult → List SourceSignal
  | [] => acc
  | Except.error _ :: rest => processResults acc rest
  | Except.ok sigs :: rest => processResults (acc ++ sigs) rest

/-- `fetch_all_signals` over the five connectors gathered with
`asyncio.gather(..., return_exceptions=True)`, each outcome supplied here
as an explicit `ConnectorResult`. -/
def fetch_all_signals (reddit glassdoor ambitionbox xPlat linkedin : ConnectorResult) :
    List SourceSignal :=
  processResults [] [reddit, glassdoor, ambitionbox, xPlat, linkedin]

/-! ## Orchestrator (`build_company_insight`, `refresh_company_insight`) -/

/-- `CompanyInsight` pydantic model (`lastCheckedAt` as integer seconds). -/
structure CompanyInsight where
  name : Text
  canonical_name : Text
  website : Option Text := none
  authenticityScore : Option ℚ := none
  scamRisk : Risk := Risk.unknown
  companyType : Option CompanyType := none
  flags : List Text := []
  sources : List SourceSignal := []
  lastCheckedAt : Int
deriving DecidableEq

/-- Key/value layer (cache or store) as an association list. -/
abbrev KVStore := List (Text × CompanyInsight)

def kvGet : KVStore → Text → Option CompanyInsight
  | [], _ => none
  | (k, v) :: rest, key => if k = key then some v else kvGet rest key

def kvDelete : KVStore → Text → KVStore
  | [], _ => []
  | (k, v) :: rest, key =>
      if k = key then kvDelete rest key else (k, v) :: kvDelete rest key

def kvPut (kv : KVStore) (key : Text) (v : CompanyInsight) : KVStore :=
  (key, v) :: kvDelete kv key

structure AggState where
  cache : KVStore
  store : KVStore
deriving DecidableEq

structure BuildResult where
  insight : CompanyInsight
  state : AggState
  fanOutRan : Bool
deriving DecidableEq

/-- The 24-hour freshness window, in seconds. -/
def freshnessWindow : Int := 86400

/-- The insight constructed on the live-fetch path of `build_company_insight`:
scores computed over the fetched signals, `lastCheckedAt` set to now. -/
def freshInsight (req : CheckCompanyRequest) (now : Int)
    (fetched : List SourceSignal) : CompanyInsight :=
  let scored := compute_scores fetched req.name req.website
  { name := req.name
    canonical_name := normalize_canonical_name req.name
    website := req.website
    authenticityScore := some scored.1
    scamRisk := scored.2.1
    companyType := scored.2.2.2
    flags := scored.2.2.1
    sources := fetched
    lastCheckedAt := now }

/-- `build_company_insight`: cache check, store check with the 24h freshness
test (re-caching a fresh record), else fan-out (its result supplied as the
`fetched` oracle), scoring, persistence to store and cache. -/
def build_company_insight (st : AggState) (req : CheckCompanyRequest) (now : Int)
    (fetched : List SourceSignal) : BuildResult :=
  let canonical_name := normalize_canonical_name req.name
  match kvGet st.cache canonical_name with
  | some cached => ⟨cached, st, false⟩
  | none =>
    let fromStore : Option BuildResult :=
      match kvGet st.store canonical_name with
      | some dbIns =>
          if now - dbIns.lastCheckedAt < freshnessWindow then
            some ⟨dbIns, ⟨kvPut st.cache canonical_name dbIns, st.store⟩, false⟩
          else none
      | none => none
    match fromStore with
    | some r => r
    | none =>
      let insight := freshInsight req now fetched
      ⟨insight, ⟨kvPut st.cache canonical_name insight, kvPut st.store canonical_name insight⟩, true⟩

/-- `refresh_company_insight`: store lookup (absent means `None`), request
rebuilt from the stored record, cache invalidation, then the same
`build_company_insight` flow. -/
def refresh_company_insight (st : AggState) (canonical_name : Text) (now : Int)
    (fetched : List SourceSignal) : Option BuildResult :=
  match kvGet st.store canonical_name with
  | none => none
  | some dbIns =>
      let req : CheckCompanyRequest := { name := dbIns.name, website := dbIns.website }
      let st1 : AggState := ⟨kvDelete st.cache canonical_name, st.store⟩
      some (build_company_insight st1 req now fetched)

/-! ## Spec-side definitions (for refinement comparisons only) -/

/-- Spec's risk-tier rule, written from the spec's words: critical flags
first, then the score bands, then the low-score flag-count rule. -/
def riskTierSpec (score : ℚ) (flags : List Text) : Risk :=
  if txt "course_marketed_as_internship" ∈ flags ∨
     txt "no_external_signals_found" ∈ flags then Risk.high
  else if 75 ≤ score then Risk.low
  else if 50 ≤ score then Risk.medium
  else if 25 ≤ score then Risk.high
  else if 3 ≤ flags.length then Risk.high
  else Risk.unknown

/-- Spec-side (claim C5): every rating present on a glassdoor/ambitionbox
signal, including `0.0`. -/
def presentReviewRatings (signals : List SourceSignal) : List ℚ :=
  signals.filterMap fun s =>
    match s.rating with
    | some r =>
        if s.platform = Platform.glassdoor ∨ s.platform = Platform.ambitionbox
        then some r else none
    | none => none

/-- Spec-side (amended C5): the present review-platform ratings that are
nonzero — the ones Python's truthiness test actually keeps. -/
def presentNonzeroReviewRatings (signals : List SourceSignal) : List ℚ :=
  (presentReviewRatings signals).filter fun r => decide (r ≠ 0)

/-- The score claim C5 predicts: rating adjustment based on the average of
every present review-platform rating (zero included). -/
def c5ClaimScore (signals : List SourceSignal) : ℚ :=
  let base := sentimentAdjustedScore signals
  let rs := presentReviewRatings signals
  let withRating :=
    if rs.isEmpty then base
    else base + ((rs.sum / (rs.length : ℚ)) / 5) * 25
  clamp0100 (volumeFactorApplied signals withRating)

/-- The combined lower-cased text that company-type inference scans. -/
def combinedTypeText (signals : List SourceSignal) (company_name : Text) : Text :=
  pyLower (company_name ++ txt " " ++
    List.intercalate (txt " ") (signals.filterMap truthySnippet))

def matchesKeywordSet (kws : List Text) (combined : Text) : Bool :=
  kws.any fun kw => containsSub kw combined

/-- Spec-side (claim C6): test the keyword sets in the spec's strict
priority order and return the first match. -/
def companyTypeSpec (signals : List SourceSignal) (company_name : Text) :
    Option CompanyType :=
  let combined := combinedTypeText signals company_name
  if matchesKeywordSet TRAINING_KEYWORDS combined then some CompanyType.training
  else if matchesKeywordSet EDTECH_KEYWORDS combined then some CompanyType.edtech
  else if matchesKeywordSet STAFFING_KEYWORDS combined then some CompanyType.staffing
  else if matchesKeywordSet IT_SERVICES_KEYWORDS combined then some CompanyType.it_services
  else none

/-- Successful connector outputs, in order. -/
def successSignals (results : List ConnectorResult) : List (List SourceSignal) :=
  results.filterMap fun r =>
    match r with
    | Except.ok sigs => some sigs
    | Except.error _ => none

/-- A connector outcome that failed or returned no signals. -/
def failedOrEmpty (r : ConnectorResult) : Prop :=
  match r with
  | Except.ok sigs => sigs = []
  | Except.error _ => True

instance (r : ConnectorResult) : Decidable (failedOrEmpty r) := by
  unfold failedOrEmpty
  match r with
  | Except.ok sigs => exact inferInstanceAs (Decidable (sigs = []))
  | Except.error _ => exact inferInstanceAs (Decidable True)

/-! ## Concrete inputs used by closed theorems -/

/-- A bare reddit signal: no snippet, no rating. -/
def redditSig : SourceSignal :=
  { platform := Platform.reddit, url := txt "https://reddit.example/r/1" }

/-- A glassdoor signal with the (valid, in-bounds) rating `0.0`. -/
def glassdoorZero : SourceSignal :=
  { platform := Platform.glassdoor, url := txt "https://glassdoor.example/a",
    rating := some 0 }

/-- A glassdoor signal with rating `5.0`. -/
def glassdoorFive : SourceSignal :=
  { platform := Platform.glassdoor, url := txt "https://glassdoor.example/b",
    rating := some 5 }

/-- A glassdoor signal with rating `4.0`. -/
def glassdoorFour : SourceSignal :=
  { platform := Platform.glassdoor, url := txt "https://glassdoor.example/c",
    rating := some 4 }

/-- A stored company record for acme, computed at time 0. -/
def recA : CompanyInsight :=
  { name := txt "acme", canonical_name := txt "acme", lastCheckedAt := 0 }

/-! ## Helper lemmas -/

theorem courseFlag_nil (ct : Option CompanyType) : courseFlag [] ct = [] := by
  unfold courseFlag
  split
  · simp [List.any]
  · rfl

theorem processResults_eq (rs : List ConnectorResult) (acc : List SourceSignal) :
    processResults acc rs = acc ++ (successSignals rs).flatten := by
  induction rs generalizing acc with
  | nil => simp [processResults, successSignals]
  | cons r rest ih =>
    cases r with
    | error e => simp [processResults, successSignals, ih]
    | ok sigs => simp [processResults, successSignals, ih]

theorem successSignals_cons_ok (sigs : List SourceSignal) (rest : List ConnectorResult) :
    successSignals (Except.ok sigs :: rest) = sigs :: successSignals rest := by
  simp [successSignals]

theorem successSignals_cons_error (e : Text) (rest : List ConnectorResult) :
    successSignals (Except.error e :: rest) = successSignals rest := by
  simp [successSignals]

theorem successSignals_flatten_nil (rs : List ConnectorResult)
    (h : ∀ r ∈ rs, failedOrEmpty r) : (successSignals rs).flatten = [] := by
  induction rs with
  | nil => simp [successSignals]
  | cons r rest ih =>
    have hr := h r (List.mem_cons_self r rest)
    have hrest := ih fun x hx => h x (List.mem_cons_of_mem r hx)
    cases r with
    | error e => rw [successSignals_cons_error]; exact hrest
    | ok sigs =>
      have hs : sigs = [] := hr
      rw [successSignals_cons_ok, List.flatten_cons, hs, hrest]
      rfl

/-! ## Claims -/

/-- C1: the risk-tier derivation is a deterministic function of
(authenticityScore, flags) evaluated as an ordered rule — critical flags
(`course_marketed_as_internship`, `no_external_signals_found`) give high;
else score ≥ 75 low, 50 ≤ s < 75 medium, 25 ≤ s < 50 high; else high when
at least 3 flags and unknown otherwise — with the spec's concrete
instances 80 → low, 60 → medium, 10 → unknown, 10 with 3 flags → high. -/
theorem c1_risk_tier_rule :
    (∀ (s : ℚ) (F : List Text), determine_scam_risk s F = riskTierSpec s F) ∧
    determine_scam_risk 80 [] = Risk.low ∧
    determine_scam_risk 60 [] = Risk.medium ∧
    determine_scam_risk 10 [] = Risk.unknown ∧
    determine_scam_risk 10 [txt "a", txt "b", txt "c"] = Risk.high := by
  refine ⟨fun s F => ?_, by decide, by decide, by decide, by decide⟩
  by_cases h : txt "course_marketed_as_internship" ∈ F ∨
      txt "no_external_signals_found" ∈ F
  · simp [determine_scam_risk, riskTierSpec, critical_flags, h]
  · push_neg at h
    simp [determine_scam_risk, riskTierSpec, critical_flags, h.1, h.2]

/-- C3: for every signal list (including the empty one), company name and
optional website, the authenticityScore returned by `compute_scores` lies
in the closed interval [0, 100]. -/
theorem c3_score_in_range (signals : List SourceSignal) (name : Text)
    (website : Option Text) :
    0 ≤ (compute_scores signals name website).1 ∧
    (compute_scores signals name website).1 ≤ 100 := by
  show 0 ≤ clamp0100 (volumeScore signals) ∧ clamp0100 (volumeScore signals) ≤ 100
  unfold clamp0100
  exact ⟨le_max_left 0 _, max_le (by norm_num) (min_le_left _ _)⟩

/-- C8: the fan-out runner never fails as a whole — for every combination of
the five connector outcomes it returns the concatenation of the signal
lists of the connectors that succeeded, and when every connector fails or
returns empty it returns the empty list successfully. -/
theorem c8_fanout_union :
    (∀ r1 r2 r3 r4 r5 : ConnectorResult,
      fetch_all_signals r1 r2 r3 r4 r5 =
        (successSignals [r1, r2, r3, r4, r5]).flatten) ∧
    (∀ r1 r2 r3 r4 r5 : ConnectorResult,
      failedOrEmpty r1 → failedOrEmpty r2 → failedOrEmpty r3 →
      failedOrEmpty r4 → failedOrEmpty r5 →
      fetch_all_signals r1 r2 r3 r4 r5 = []) := by
  have hmain : ∀ r1 r2 r3 r4 r5 : ConnectorResult,
      fetch_all_signals r1 r2 r3 r4 r5 =
        (successSignals [r1, r2, r3, r4, r5]).flatten := by
    intro r1 r2 r3 r4 r5
    simpa using processResults_eq [r1, r2, r3, r4, r5] []
  refine ⟨hmain, fun r1 r2 r3 r4 r5 h1 h2 h3 h4 h5 => ?_⟩
  rw [hmain]
  apply successSignals_flatten_nil
  intro r hr
  simp only [List.mem_cons, List.not_mem_nil, or_false] at hr
  rcases hr with rfl | rfl | rfl | rfl | rfl <;> assumption

/-- C8 witness: five connectors all raising or empty yields the empty list,
via `c8_fanout_union` at concrete exception values. -/
theorem c8_fanout_union_witness :
    fetch_all_signals (Except.error (txt "timeout")) (Except.error (txt "boom"))
      (Except.error (txt "500")) (Except.ok []) (Except.error (txt "dns")) = [] :=
  c8_fanout_union.2 (Except.error (txt "timeout")) (Except.error (txt "boom"))
    (Except.error (txt "500")) (Except.ok []) (Except.error (txt "dns"))
    trivial trivial trivial rfl trivial

/-- C2: at the zero-signal failing input the score is overridden to 20 as
claimed, but the flag appended is spelled "no external signals found"
(spaces), not `no_external_signals_found` as the spec and the
`critical_flags` list of `determine_scam_risk` expect; likewise one signal
yields "limited external signals" (spaces), not `limited_external_signals`. -/
theorem c2_volume_flag_spelling :
    (compute_scores [] (txt "acme") none).1 = 20 ∧
    txt "no external signals found" ∈ (compute_scores [] (txt "acme") none).2.2.1 ∧
    txt "no_external_signals_found" ∉ (compute_scores [] (txt "acme") none).2.2.1 ∧
    txt "limited external signals" ∈ (compute_scores [redditSig] (txt "acme") none).2.2.1 ∧
    txt "limited_external_signals" ∉ (compute_scores [redditSig] (txt "acme") none).2.2.1 := by
  decide

/-- C10: for every company name and request context, the scoring engine on
the empty signal list yields score 20, at least three flags, and risk tier
high (reached through the low-score flag-count branch). -/
theorem c10_zero_signals_high (name : Text) (website : Option Text) :
    (compute_scores [] name website).1 = 20 ∧
    3 ≤ (compute_scores [] name website).2.2.1.length ∧
    (compute_scores [] name website).2.1 = Risk.high := by
  have hcf := courseFlag_nil (infer_company_type [] name)
  refine ⟨?_, ?_, ?_⟩
  · show clamp0100 (volumeScore []) = 20
    decide
  · show 3 ≤ (flagsOf [] website (infer_company_type [] name)).length
    rcases website with _ | w
    · simp [flagsOf, hcf]
    · by_cases hw : w.isEmpty <;> simp [flagsOf, hcf, hw]
  · show determine_scam_risk (volumeScore [])
        (flagsOf [] website (infer_company_type [] name)) = Risk.high
    rcases website with _ | w
    · have hfl : flagsOf [] none (infer_company_type [] name) =
          [txt "no external signals found", txt "no_linkedin_page",
           txt "no_glassdoor_presence", txt "no_website_provided"] := by
        simp [flagsOf, hcf]
      rw [hfl]; decide
    · by_cases hw : w.isEmpty
      · have hfl : flagsOf [] (some w) (infer_company_type [] name) =
            [txt "no external signals found", txt "no_linkedin_page",
             txt "no_glassdoor_presence", txt "no_website_provided"] := by
          simp [flagsOf, hcf, hw]
        rw [hfl]; decide
      · have hfl : flagsOf [] (some w) (infer_company_type [] name) =
            [txt "no external signals found", txt "no_linkedin_page",
             txt "no_glassdoor_presence"] := by
          simp [flagsOf, hcf, hw]
        rw [hfl]; decide

theorem ratingList_eq_nonzero (signals : List SourceSignal) :
    ratingList signals = presentNonzeroReviewRatings signals := by
  induction signals with
  | nil => rfl
  | cons s rest ih =>
    unfold ratingList presentNonzeroReviewRatings presentReviewRatings at ih ⊢
    cases hr : s.rating with
    | none => simpa [List.filterMap_cons, hr] using ih
    | some r =>
      by_cases hp : s.platform = Platform.glassdoor ∨ s.platform = Platform.ambitionbox
      · by_cases hz : r = 0
        · simpa [List.filterMap_cons, hr, hp, hz] using ih
        · simpa [List.filterMap_cons, hr, hp, hz] using ih
      · simpa [List.filterMap_cons, hr, hp] using ih

instance decEqExceptReq : DecidableEq (Except ValidationError CheckCompanyRequest) :=
  fun x y =>
    match x, y with
    | Except.ok a, Except.ok b =>
        if h : a = b then isTrue (by rw [h])
        else isFalse (by intro hc; injection hc; exact h (by assumption))
    | Except.error a, Except.error b =>
        if h : a = b then isTrue (by rw [h])
        else isFalse (by intro hc; injection hc; exact h (by assumption))
    | Except.ok _, Except.error _ => isFalse (fun hc => Except.noConfusion hc)
    | Except.error _, Except.ok _ => isFalse (fun hc => Except.noConfusion hc)

/-- C6: company-type inference lower-cases the concatenation of the company
name with the signal snippets and tests the keyword sets in strict priority
order — training, then edtech, then staffing, then it_services — returning
the first category that matches and none otherwise; in particular a text
matching both training and edtech vocabulary is classified training. -/
theorem c6_company_type_priority :
    (∀ (signals : List SourceSignal) (name : Text),
      infer_company_type signals name = companyTypeSpec signals name) ∧
    (∀ (signals : List SourceSignal) (name : Text),
      matchesKeywordSet TRAINING_KEYWORDS (combinedTypeText signals name) = true →
      matchesKeywordSet EDTECH_KEYWORDS (combinedTypeText signals name) = true →
      infer_company_type signals name = some CompanyType.training) := by
  have heq : ∀ (signals : List SourceSignal) (name : Text),
      infer_company_type signals name = companyTypeSpec signals name := by
    intro signals name
    rfl
  refine ⟨heq, fun signals name ht _ => ?_⟩
  rw [heq]
  unfold companyTypeSpec
  simp [ht]

/-- C6 witness: a name matching both training ("training") and edtech
("skill") vocabulary is classified training, via `c6_company_type_priority`. -/
theorem c6_company_type_priority_witness :
    infer_company_type [] (txt "skill training hub") = some CompanyType.training :=
  c6_company_type_priority.2 [] (txt "skill training hub") (by decide) (by decide)

/-- C7 counterexample: the whitespace-only name " " is not empty, consists
only of whitespace, yet passes request validation (pydantic `min_length=1`)
and canonicalizes to the empty key — the pipeline does not fail it with
InvalidInput, contradicting the claim. -/
theorem c7_counterexample :
    (∀ c ∈ txt " ", isPySpace c = true) ∧
    txt " " ≠ [] ∧
    parseCheckCompanyRequest (txt " ") none =
      Except.ok { name := txt " ", website := none } ∧
    normalize_canonical_name (txt " ") = [] := by decide

/-- C7 amended: request validation fails with InvalidInput exactly when the
raw name is empty; every nonempty name — whitespace-only names included —
is accepted, and canonicalization itself is total (never fails). -/
theorem c7_validation_amended (name : Text) (website : Option Text) :
    (parseCheckCompanyRequest name website =
        Except.error ValidationError.invalidInput ↔ name = []) ∧
    (name ≠ [] →
      parseCheckCompanyRequest name website =
        Except.ok { name := name, website := website }) := by
  by_cases hn : name = []
  · subst hn
    refine ⟨?_, fun h => absurd rfl h⟩
    simp [parseCheckCompanyRequest]
  · have hlen : 1 ≤ name.length := List.length_pos.mpr hn
    refine ⟨?_, fun _ => ?_⟩
    · simp [parseCheckCompanyRequest, hlen, hn]
    · simp [parseCheckCompanyRequest, hlen]

/-- C7 amended witness: a normal nonempty name is accepted, via
`c7_validation_amended`. -/
theorem c7_validation_amended_witness :
    parseCheckCompanyRequest (txt "Acme Corp") none =
      Except.ok { name := txt "Acme Corp", website := none } :=
  (c7_validation_amended (txt "Acme Corp") none).2 (by decide)

/-- C5 counterexample: with glassdoor ratings 0.0 and 5.0 both present (both
within the model's 0.0–5.0 bound), the claim predicts
(50 + ((2.5)/5)·25) · 0.9 = 225/4 = 56.25, but the code's truthiness test
drops the 0.0 rating and yields (50 + (5/5)·25) · 0.9 = 135/2 = 67.5. -/
theorem c5_counterexample :
    (compute_scores [glassdoorZero, glassdoorFive] (txt "acme")
        (some (txt "https://acme.example"))).1 = 135 / 2 ∧
    c5ClaimScore [glassdoorZero, glassdoorFive] = 225 / 4 ∧
    (compute_scores [glassdoorZero, glassdoorFive] (txt "acme")
        (some (txt "https://acme.example"))).1 ≠
      c5ClaimScore [glassdoorZero, glassdoorFive] := by
  have hrl : ratingList [glassdoorZero, glassdoorFive] = [5] := by decide
  have hsl : sentimentList [glassdoorZero, glassdoorFive] = [] := by decide
  have hpr : presentReviewRatings [glassdoorZero, glassdoorFive] = [0, 5] := by decide
  have hsas : sentimentAdjustedScore [glassdoorZero, glassdoorFive] = 50 := by
    simp [sentimentAdjustedScore, hsl]
  have hbase : baseScore [glassdoorZero, glassdoorFive] = 75 := by
    simp only [baseScore, hrl, hsas]
    norm_num
  have hlen : ([glassdoorZero, glassdoorFive] : List SourceSignal).length = 2 := rfl
  have hcode : (compute_scores [glassdoorZero, glassdoorFive] (txt "acme")
      (some (txt "https://acme.example"))).1 = 135 / 2 := by
    show clamp0100 (volumeScore [glassdoorZero, glassdoorFive]) = 135 / 2
    simp only [clamp0100, volumeScore, volumeFactorApplied, hbase, hlen]
    norm_num
  have hclaim : c5ClaimScore [glassdoorZero, glassdoorFive] = 225 / 4 := by
    simp only [c5ClaimScore, clamp0100, volumeFactorApplied, hpr, hsas, hlen]
    norm_num
  refine ⟨hcode, hclaim, ?_⟩
  rw [hcode, hclaim]
  norm_num

/-- C5 amended: the rating adjustment `(averageRating / 5) * 25` is applied
exactly when at least one nonzero rating is present on a glassdoor or
ambitionbox signal, and the average is taken over those nonzero ratings
only (Python's truthiness drops a present rating of 0.0); with no such
nonzero rating, no rating adjustment is applied. -/
theorem c5_rating_adjustment_amended (signals : List SourceSignal) (name : Text)
    (website : Option Text) :
    (presentNonzeroReviewRatings signals ≠ [] →
      (compute_scores signals name website).1 =
        clamp0100 (volumeFactorApplied signals
          (sentimentAdjustedScore signals +
            (((presentNonzeroReviewRatings signals).sum /
                ((presentNonzeroReviewRatings signals).length : ℚ)) / 5) * 25))) ∧
    (presentNonzeroReviewRatings signals = [] →
      (compute_scores signals name website).1 =
        clamp0100 (volumeFactorApplied signals (sentimentAdjustedScore signals))) := by
  have hcode : (compute_scores signals name website).1 =
      clamp0100 (volumeFactorApplied signals (baseScore signals)) := rfl
  constructor
  · intro h
    rw [hcode]
    have hb : baseScore signals =
        sentimentAdjustedScore signals +
          (((presentNonzeroReviewRatings signals).sum /
              ((presentNonzeroReviewRatings signals).length : ℚ)) / 5) * 25 := by
      unfold baseScore
      rw [ratingList_eq_nonzero]
      simp [List.isEmpty_iff, h]
    rw [hb]
  · intro h
    rw [hcode]
    have hb : baseScore signals = sentimentAdjustedScore signals := by
      unfold baseScore
      rw [ratingList_eq_nonzero, h]
      simp
    rw [hb]

/-- C5 amended witness: one glassdoor signal with rating 4.0, via
`c5_rating_adjustment_amended`. -/
theorem c5_rating_adjustment_amended_witness :
    (compute_scores [glassdoorFour] (txt "acme") none).1 =
      clamp0100 (volumeFactorApplied [glassdoorFour]
        (sentimentAdjustedScore [glassdoorFour] +
          (((presentNonzeroReviewRatings [glassdoorFour]).sum /
              ((presentNonzeroReviewRatings [glassdoorFour]).length : ℚ)) / 5) * 25)) :=
  (c5_rating_adjustment_amended [glassdoorFour] (txt "acme") none).1 (by decide)

theorem kvGet_kvDelete (kv : KVStore) (key : Text) :
    kvGet (kvDelete kv key) key = none := by
  induction kv with
  | nil => rfl
  | cons p rest ih =>
    obtain ⟨k, v⟩ := p
    by_cases hk : k = key
    · simp [kvDelete, hk, ih]
    · simp [kvDelete, kvGet, hk, ih]

theorem build_cache_miss_fresh (st : AggState) (req : CheckCompanyRequest)
    (now : Int) (fetched : List SourceSignal) (rec : CompanyInsight) (k : Text)
    (hk : normalize_canonical_name req.name = k)
    (hc : kvGet st.cache k = none)
    (hs : kvGet st.store k = some rec)
    (hfresh : now - rec.lastCheckedAt < freshnessWindow) :
    build_company_insight st req now fetched =
      ⟨rec, ⟨kvPut st.cache k rec, st.store⟩, false⟩ := by
  simp only [build_company_insight, hk, hc, hs]
  rw [if_pos hfresh]

theorem build_cache_miss_stale (st : AggState) (req : CheckCompanyRequest)
    (now : Int) (fetched : List SourceSignal) (rec : CompanyInsight) (k : Text)
    (hk : normalize_canonical_name req.name = k)
    (hc : kvGet st.cache k = none)
    (hs : kvGet st.store k = some rec)
    (hstale : ¬ now - rec.lastCheckedAt < freshnessWindow) :
    build_company_insight st req now fetched =
      ⟨freshInsight req now fetched,
       ⟨kvPut st.cache k (freshInsight req now fetched),
        kvPut st.store k (freshInsight req now fetched)⟩, true⟩ := by
  simp only [build_company_insight, hk, hc, hs]
  rw [if_neg hstale]

/-- C4 counterexample: with a stored record only one hour old, refresh does
not re-run the fan-out and does not produce a new computedAt — it returns
the stored insight unchanged (fanOutRan = false, lastCheckedAt still 0 at
now = 3600), contradicting the claim that the rebuild is unconditional. -/
theorem c4_counterexample :
    (refresh_company_insight ⟨[], [(txt "acme", recA)]⟩ (txt "acme") 3600 []).map
        BuildResult.fanOutRan = some false ∧
    (refresh_company_insight ⟨[], [(txt "acme", recA)]⟩ (txt "acme") 3600 []).map
        (fun r => r.insight.lastCheckedAt) = some 0 ∧
    (refresh_company_insight ⟨[], [(txt "acme", recA)]⟩ (txt "acme") 3600 []).map
        BuildResult.insight = some recA := by
  decide

/-- C4 amended: for every canonical key with a stored record, refresh
invalidates the cache entry and re-runs the lookup/build with the stored
record's name and website; the cache-hit check is thereby bypassed, but the
24-hour freshness check is not — a record younger than 24h is returned
unchanged with its original computedAt and no fan-out, and only a stale
record triggers the fan-out, scoring and persistence steps and returns a
fresh insight with computedAt = now. -/
theorem c4_refresh_keeps_freshness_check (st : AggState) (key : Text) (now : Int)
    (fetched : List SourceSignal) (rec : CompanyInsight)
    (hrec : kvGet st.store key = some rec)
    (hname : normalize_canonical_name rec.name = key) :
    (now - rec.lastCheckedAt < freshnessWindow →
      refresh_company_insight st key now fetched =
        some ⟨rec, ⟨kvPut (kvDelete st.cache key) key rec, st.store⟩, false⟩) ∧
    (¬ now - rec.lastCheckedAt < freshnessWindow →
      refresh_company_insight st key now fetched =
        some ⟨freshInsight { name := rec.name, website := rec.website } now fetched,
          ⟨kvPut (kvDelete st.cache key) key
              (freshInsight { name := rec.name, website := rec.website } now fetched),
           kvPut st.store key
              (freshInsight { name := rec.name, website := rec.website } now fetched)⟩,
          true⟩ ∧
      (freshInsight { name := rec.name, website := rec.website } now fetched).lastCheckedAt
        = now) := by
  have hdel : kvGet (kvDelete st.cache key) key = none := kvGet_kvDelete st.cache key
  constructor
  · intro hfresh
    simp only [refresh_company_insight, hrec]
    rw [build_cache_miss_fresh ⟨kvDelete st.cache key, st.store⟩
      { name := rec.name, website := rec.website } now fetched rec key hname hdel hrec hfresh]
  · intro hstale
    refine ⟨?_, rfl⟩
    simp only [refresh_company_insight, hrec]
    rw [build_cache_miss_stale ⟨kvDelete st.cache key, st.store⟩
      { name := rec.name, website := rec.website } now fetched rec key hname hdel hrec hstale]

/-- C4 amended witness: with a stored record 200000 seconds old (stale),
refresh re-runs the build and returns a fresh insight with computedAt =
now, via `c4_refresh_keeps_freshness_check`. -/
theorem c4_refresh_keeps_freshness_check_witness :
    refresh_company_insight ⟨[], [(txt "acme", recA)]⟩ (txt "acme") 200000 [] =
      some ⟨freshInsight { name := recA.name, website := recA.website } 200000 [],
        ⟨kvPut (kvDelete ([] : KVStore) (txt "acme")) (txt "acme")
            (freshInsight { name := recA.name, website := recA.website } 200000 []),
         kvPut [(txt "acme", recA)] (txt "acme")
            (freshInsight { name := recA.name, website := recA.website } 200000 [])⟩,
        true⟩ :=
  ((c4_refresh_keeps_freshness_check ⟨[], [(txt "acme", recA)]⟩ (txt "acme") 200000 []
    recA (by decide) (by decide)).2 (by decide)).1

theorem dropWhile_dropWhile (p : Nat → Bool) (l : Text) :
    (l.dropWhile p).dropWhile p = l.dropWhile p := by
  induction l with
  | nil => rfl
  | cons c cs ih =>
    by_cases hc : p c
    · simp [List.dropWhile_cons, hc, ih]
    · simp [List.dropWhile_cons, hc]

theorem dropWhile_append_all (p : Nat → Bool) (w l : Text)
    (h : ∀ c ∈ w, p c = true) : (w ++ l).dropWhile p = l.dropWhile p := by
  induction w with
  | nil => rfl
  | cons c cs ih =>
    have hc := h c (List.mem_cons_self c cs)
    simp only [List.cons_append, List.dropWhile_cons, hc, if_true]
    exact ih fun x hx => h x (List.mem_cons_of_mem c hx)

theorem dropWhile_head_false (p : Nat → Bool) (l : Text) (c : Nat) (rest : Text)
    (h : l.dropWhile p = c :: rest) : p c = false := by
  induction l with
  | nil => cases h
  | cons a as ih =>
    by_cases ha : p a
    · rw [List.dropWhile_cons, if_pos ha] at h
      exact ih h
    · rw [List.dropWhile_cons, if_neg ha] at h
      cases h
      exact Bool.eq_false_iff.mpr ha

theorem dropWhile_eq_nil_all (p : Nat → Bool) (l : Text)
    (h : l.dropWhile p = []) : ∀ c ∈ l, p c = true := by
  induction l with
  | nil => intro c hc; cases hc
  | cons a as ih =>
    by_cases ha : p a
    · rw [List.dropWhile_cons, if_pos ha] at h
      intro c hc
      rcases List.mem_cons.mp hc with rfl | hc
      · exact ha
      · exact ih h c hc
    · rw [List.dropWhile_cons, if_neg ha] at h
      cases h

theorem dropWhile_all_nil (p : Nat → Bool) (l : Text)
    (h : ∀ c ∈ l, p c = true) : l.dropWhile p = [] := by
  induction l with
  | nil => rfl
  | cons a as ih =>
    rw [List.dropWhile_cons, if_pos (h a (List.mem_cons_self a as))]
    exact ih fun x hx => h x (List.mem_cons_of_mem a hx)

theorem dropWhile_append_ne (p : Nat → Bool) (l w : Text)
    (h : l.dropWhile p ≠ []) :
    (l ++ w).dropWhile p = l.dropWhile p ++ w := by
  induction l with
  | nil => exact absurd rfl h
  | cons c cs ih =>
    by_cases hc : p c
    · rw [List.dropWhile_cons, if_pos hc] at h
      simp only [List.cons_append, List.dropWhile_cons, hc, if_true]
      exact ih h
    · simp [List.cons_append, List.dropWhile_cons, hc]

theorem isPySpace_false_of_large (c : Nat) (h : 33 ≤ c) : isPySpace c = false := by
  simp only [isPySpace, Bool.or_eq_false_iff, beq_eq_false_iff_ne, ne_eq]
  omega

theorem isPySpace_lowerChar (c : Nat) : isPySpace (lowerChar c) = isPySpace c := by
  unfold lowerChar
  split
  · next h =>
    rw [isPySpace_false_of_large (c + 32) (by omega),
      isPySpace_false_of_large c (by omega)]
  · rfl

theorem lowerChar_lowerChar (c : Nat) : lowerChar (lowerChar c) = lowerChar c := by
  simp only [lowerChar]
  by_cases h : 65 ≤ c ∧ c ≤ 90
  · rw [if_pos h, if_neg (by omega)]
  · rw [if_neg h, if_neg h]

theorem pyLower_pyLower (l : Text) : pyLower (pyLower l) = pyLower l := by
  unfold pyLower
  rw [List.map_map]
  exact List.map_congr_left fun a _ => lowerChar_lowerChar a

theorem dropWhile_map_lower (l : Text) :
    (l.map lowerChar).dropWhile isPySpace = (l.dropWhile isPySpace).map lowerChar := by
  induction l with
  | nil => rfl
  | cons c cs ih =>
    simp only [List.map_cons, List.dropWhile_cons, isPySpace_lowerChar]
    by_cases hc : isPySpace c
    · simp [hc, ih]
    · simp [hc]

theorem pyLower_pyStrip (t : Text) : pyLower (pyStrip t) = pyStrip (pyLower t) := by
  unfold pyLower pyStrip
  rw [List.map_reverse, ← dropWhile_map_lower, List.map_reverse, ← dropWhile_map_lower]

theorem pyStrip_dropWhile (l : Text) :
    (pyStrip l).dropWhile isPySpace = pyStrip l := by
  unfold pyStrip
  cases hrev : ((l.dropWhile isPySpace).reverse.dropWhile isPySpace).reverse with
  | nil => rfl
  | cons a rest =>
    have he' : (l.dropWhile isPySpace).reverse.dropWhile isPySpace =
        rest.reverse ++ [a] := by
      rw [← List.reverse_reverse ((l.dropWhile isPySpace).reverse.dropWhile isPySpace),
        hrev, List.reverse_cons]
    have hsuf : (l.dropWhile isPySpace).reverse.takeWhile isPySpace ++
        (l.dropWhile isPySpace).reverse.dropWhile isPySpace =
        (l.dropWhile isPySpace).reverse :=
      List.takeWhile_append_dropWhile isPySpace (l.dropWhile isPySpace).reverse
    have hdec : l.dropWhile isPySpace =
        a :: (rest ++ ((l.dropWhile isPySpace).reverse.takeWhile isPySpace).reverse) := by
      calc l.dropWhile isPySpace
          = (l.dropWhile isPySpace).reverse.reverse :=
            (List.reverse_reverse (l.dropWhile isPySpace)).symm
      _ = ((l.dropWhile isPySpace).reverse.takeWhile isPySpace ++
            (l.dropWhile isPySpace).reverse.dropWhile isPySpace).reverse := by
            rw [hsuf]
      _ = ((l.dropWhile isPySpace).reverse.dropWhile isPySpace).reverse ++
            ((l.dropWhile isPySpace).reverse.takeWhile isPySpace).reverse := by
            rw [List.reverse_append]
      _ = (a :: rest) ++
            ((l.dropWhile isPySpace).reverse.takeWhile isPySpace).reverse := by
            rw [hrev]
      _ = a :: (rest ++
            ((l.dropWhile isPySpace).reverse.takeWhile isPySpace).reverse) := rfl
    have hpa : isPySpace a = false :=
      dropWhile_head_false isPySpace l a _ hdec
    rw [List.dropWhile_cons, hpa]
    simp

theorem pyStrip_pyStrip (t : Text) : pyStrip (pyStrip t) = pyStrip t := by
  have h1 := pyStrip_dropWhile t
  unfold pyStrip at h1 ⊢
  rw [h1, List.reverse_reverse, dropWhile_dropWhile]

theorem pyStrip_ws_prepend (w t : Text) (h : ∀ c ∈ w, isPySpace c = true) :
    pyStrip (w ++ t) = pyStrip t := by
  unfold pyStrip
  rw [dropWhile_append_all isPySpace w t h]

theorem pyStrip_ws_append (t w : Text) (h : ∀ c ∈ w, isPySpace c = true) :
    pyStrip (t ++ w) = pyStrip t := by
  unfold pyStrip
  by_cases hd : t.dropWhile isPySpace = []
  · rw [dropWhile_all_nil isPySpace (t ++ w) ?all, hd]
    case all =>
      intro c hc
      rcases List.mem_append.mp hc with hc | hc
      · exact dropWhile_eq_nil_all isPySpace t hd c hc
      · exact h c hc
  · rw [dropWhile_append_ne isPySpace t w hd, List.reverse_append,
      dropWhile_append_all isPySpace w.reverse _ fun c hc =>
        h c (List.mem_reverse.mp hc)]

/-- C9: canonicalization is idempotent — normalize (normalize x) =
normalize x — and case/whitespace-insensitive: surrounding whitespace is
ignored and names equal up to letter case map to the same canonical key;
in particular " Foo Corp " and "foo corp" share one key. -/
theorem c9_canonicalization_algebra :
    (∀ x : Text, normalize_canonical_name (normalize_canonical_name x) =
      normalize_canonical_name x) ∧
    (∀ w1 w2 x : Text, (∀ c ∈ w1, isPySpace c = true) →
      (∀ c ∈ w2, isPySpace c = true) →
      normalize_canonical_name (w1 ++ x ++ w2) = normalize_canonical_name x) ∧
    (∀ x y : Text, pyLower x = pyLower y →
      normalize_canonical_name x = normalize_canonical_name y) ∧
    normalize_canonical_name (txt " Foo Corp ") =
      normalize_canonical_name (txt "foo corp") := by
  refine ⟨?_, ?_, ?_, by decide⟩
  · intro x
    show pyLower (pyStrip (pyLower (pyStrip x))) = pyLower (pyStrip x)
    rw [pyLower_pyStrip (pyLower (pyStrip x)), pyLower_pyLower (pyStrip x),
      pyLower_pyStrip x, pyStrip_pyStrip (pyLower x)]
  · intro w1 w2 x h1 h2
    show pyLower (pyStrip (w1 ++ x ++ w2)) = pyLower (pyStrip x)
    rw [pyStrip_ws_append (w1 ++ x) w2 h2, pyStrip_ws_prepend w1 x h1]
  · intro x y hxy
    show pyLower (pyStrip x) = pyLower (pyStrip y)
    rw [pyLower_pyStrip, hxy, ← pyLower_pyStrip]

/-- C9 witness: surrounding spaces are ignored, via
`c9_canonicalization_algebra`. -/
theorem c9_canonicalization_algebra_witness :
    normalize_canonical_name (txt " " ++ txt "foo" ++ txt " ") =
      normalize_canonical_name (txt "foo") :=
  c9_canonicalization_algebra.2.1 (txt " ") (txt " ") (txt "foo")
    (by decide) (by decide)

end KnowYourCompany
